import Mathlib

/-!
Verification of the A/B-testing pipeline (src/AB_Testing.py).

The script loads two tabular datasets (Control, Test) with four numeric
columns, caps outliers in the "Purchase" column using thresholds derived
from the 1st/99th percentiles (pandas linear-interpolation quantiles),
labels each row with its group, concatenates the frames, and then runs
Shapiro-Wilk, Levene and an independent t-test, printing verdicts against
a significance level of 0.05.

Numeric cell values are modelled as rationals.  The external statistics
routines (scipy's shapiro, levene, ttest_ind, mannwhitneyu) are pure
functions of their inputs; they are taken as parameters of the pipeline
model, since their numerics live outside this repository.  Everything the
script itself computes (quantiles, thresholds, capping, labelling,
concatenation, threshold comparisons, which scipy routine is invoked and
with which flags, and the printed verdict strings) is modelled directly
from the source.
-/

namespace ABTesting

/-- One observation row: the four numeric columns of the spreadsheet plus
the "Group" column, which is absent (`none`) until the script assigns it. -/
structure Row where
  Impression : ℚ
  Click : ℚ
  Purchase : ℚ
  Earning : ℚ
  Group : Option String
deriving DecidableEq, Repr

instance : Inhabited Row := ⟨⟨0, 0, 0, 0, none⟩⟩

/-- The four numeric columns a capping call can target. -/
inductive Field where
  | impression
  | click
  | purchase
  | earning
deriving DecidableEq, Repr

/-- Read a numeric column from a row. -/
def Field.get : Field → Row → ℚ
  | .impression, r => r.Impression
  | .click, r => r.Click
  | .purchase, r => r.Purchase
  | .earning, r => r.Earning

/-- Write a numeric column of a row. -/
def Field.set : Field → ℚ → Row → Row
  | .impression, x, r => { r with Impression := x }
  | .click, x, r => { r with Click := x }
  | .purchase, x, r => { r with Purchase := x }
  | .earning, x, r => { r with Earning := x }

/-- A pandas DataFrame as used by the script: an ordered list of rows
together with its (integer positional) index labels. -/
structure DataFrame where
  rows : List Row
  index : List ℕ
deriving DecidableEq, Repr

/-- A freshly loaded frame carries the default RangeIndex 0..n-1. -/
def DataFrame.ofRows (rs : List Row) : DataFrame :=
  ⟨rs, List.range rs.length⟩

/-- The values of one numeric column, in row order
(`dataframe[variable]`). -/
def colValues (f : Field) (df : DataFrame) : List ℚ :=
  df.rows.map f.get

/-- Linear interpolation at fractional position `h` into the sorted list
`s` (the numpy/pandas "linear" quantile rule):
`s[floor h] + (h - floor h) * (s[ceil h] - s[floor h])`. -/
def interpAt (s : List ℚ) (h : ℚ) : ℚ :=
  s.getD (⌊h⌋).toNat 0 +
    (h - (((⌊h⌋).toNat : ℕ) : ℚ)) * (s.getD (⌈h⌉).toNat 0 - s.getD (⌊h⌋).toNat 0)

/-- `Series.quantile(q)` with the default linear interpolation: sort the
values and interpolate at position `q * (n - 1)`.  (pandas returns NaN on
an empty series; we return 0, a case no claim depends on.) -/
def quantile (l : List ℚ) (q : ℚ) : ℚ :=
  if l = [] then 0
  else interpAt (l.insertionSort (· ≤ ·)) (q * ((l.length : ℚ) - 1))

/-- `outlier_thresholds(dataframe, variable)` from the source:
quartile1 = 1st percentile, quartile3 = 99th percentile,
low = quartile1 - 1.5·IQR, up = quartile3 + 1.5·IQR. -/
def outlier_thresholds (df : DataFrame) (f : Field) : ℚ × ℚ :=
  let quartile1 := quantile (colValues f df) (1/100)
  let quartile3 := quantile (colValues f df) (99/100)
  let interquantile_range := quartile3 - quartile1
  (quartile1 - 3/2 * interquantile_range, quartile3 + 3/2 * interquantile_range)

/-- `replace_with_thresholds(dataframe, variable)`: two sequential
column-wide assignments, first raising the values below the low limit,
then lowering the values above the up limit.  The index is untouched. -/
def replace_with_thresholds (df : DataFrame) (f : Field) : DataFrame :=
  let lu := outlier_thresholds df f
  let rows1 := df.rows.map (fun r => if f.get r < lu.1 then f.set lu.1 r else r)
  let rows2 := rows1.map (fun r => if f.get r > lu.2 then f.set lu.2 r else r)
  ⟨rows2, df.index⟩

/-- `dfc["Group"] = "C"` / `dft["Group"] = "T"`: assign a constant Group
column to every row. -/
def assignGroup (g : String) (df : DataFrame) : DataFrame :=
  ⟨df.rows.map (fun r => { r with Group := some g }), df.index⟩

/-- `pd.concat([dfc, dft], axis=0, ignore_index=True)`: rows of the first
frame followed by rows of the second, with the positional index reset to
0..n-1. -/
def concatIgnoreIndex (a b : DataFrame) : DataFrame :=
  ⟨a.rows ++ b.rows, List.range (a.rows.length + b.rows.length)⟩

/-- `df.loc[df["Group"] == g, "Purchase"]`. -/
def locGroupPurchase (df : DataFrame) (g : String) : List ℚ :=
  (df.rows.filter (fun r => decide (r.Group = some g))).map Row.Purchase

/-- Which comparison routine the script invokes, with the equal-variance
flag for the parametric branch. -/
inductive ComparisonTest where
  | ttest (equal_var : Bool)
  | mannwhitney
deriving DecidableEq, Repr

/-- The final block (source lines 157-164): compare the p-value against
alpha = 0.05 and print the decision, then the statistic and the p-value
in both branches. -/
structure Interpretation where
  decision : String
  statLine : ℚ
  pLine : ℚ
deriving DecidableEq, Repr

/-- `if p_value > alpha: print("H0 can not be denied!") ... else:
print("H0 can denied!") ...` with alpha = 0.05. -/
def interpret (test_stat p_value : ℚ) : Interpretation :=
  if p_value > 1/20 then
    ⟨"H0 can not be denied!", test_stat, p_value⟩
  else
    ⟨"H0 can denied!", test_stat, p_value⟩

/-- One normality check (source lines 121-126 / 128-133): run
Shapiro-Wilk on a list of purchases and print the verdict against
alpha = 0.05. -/
def normalityStep (shapiro : List ℚ → ℚ × ℚ) (vals : List ℚ) : (ℚ × ℚ) × String :=
  let r := shapiro vals
  (r, if r.2 > 1/20 then "Sample looks normal!" else "Sample does not look normal!")

/-- Everything the hypothesis-testing part of the script produces. -/
structure ABResult where
  shapiroC : ℚ × ℚ
  normalMsgC : String
  shapiroT : ℚ × ℚ
  normalMsgT : String
  leveneRes : ℚ × ℚ
  homogMsg : String
  test : ComparisonTest
  testRes : ℚ × ℚ
  verdict : Interpretation
deriving DecidableEq, Repr

/-- The hypothesis-testing part of the script (source lines 119-164),
run on the merged frame.  The scipy routines are parameters.  Note the
source calls `ttest_ind(..., equal_var=True)` unconditionally: no code
path selects `mannwhitneyu`, and the Shapiro/Levene p-values only feed
the printed verdict strings. -/
def runAB (shapiro : List ℚ → ℚ × ℚ) (levene : List ℚ → List ℚ → ℚ × ℚ)
    (ttest_ind : List ℚ → List ℚ → Bool → ℚ × ℚ)
    (mannwhitneyu : List ℚ → List ℚ → ℚ × ℚ) (df : DataFrame) : ABResult :=
  let c := locGroupPurchase df "C"
  let t := locGroupPurchase df "T"
  let sC := normalityStep shapiro c
  let sT := normalityStep shapiro t
  let lv := levene c t
  let homog := if lv.2 > 1/20 then "Variances are homogene!" else "Variances are not homogene!"
  let _ := mannwhitneyu
  let tr := ttest_ind c t true
  { shapiroC := sC.1, normalMsgC := sC.2,
    shapiroT := sT.1, normalMsgT := sT.2,
    leveneRes := lv, homogMsg := homog,
    test := ComparisonTest.ttest true,
    testRes := tr,
    verdict := interpret tr.1 tr.2 }

/-! ### Arithmetic facts about the interpolated quantile -/

theorem sorted_getD_mono {s : List ℚ} (hs : s.Sorted (· ≤ ·)) {i j : ℕ}
    (hij : i ≤ j) (hj : j < s.length) : s.getD i 0 ≤ s.getD j 0 := by
  rcases eq_or_lt_of_le hij with rfl | hlt
  · exact le_refl _
  · rw [List.getD_eq_get _ _ (lt_trans hlt hj), List.getD_eq_get _ _ hj]
    exact hs.rel_get_of_lt (by exact hlt)

theorem length_pos_of_pos_le {n : ℕ} {h : ℚ} (h0 : 0 ≤ h)
    (hn : h ≤ (n : ℚ) - 1) : 1 ≤ n := by
  by_contra hc
  push_neg at hc
  interval_cases n
  norm_num at hn
  linarith

theorem ceil_toNat_lt {n : ℕ} {h : ℚ} (h0 : 0 ≤ h)
    (hn : h ≤ (n : ℚ) - 1) : (⌈h⌉).toNat < n := by
  have h1 : 1 ≤ n := length_pos_of_pos_le h0 hn
  have hc : ⌈h⌉ ≤ (n : ℤ) - 1 := Int.ceil_le.mpr (by push_cast; linarith)
  omega

theorem floor_toNat_lt {n : ℕ} {h : ℚ} (h0 : 0 ≤ h)
    (hn : h ≤ (n : ℚ) - 1) : (⌊h⌋).toNat < n := by
  have := ceil_toNat_lt h0 hn
  have := Int.floor_le_ceil h
  omega

theorem floor_toNat_cast {h : ℚ} (h0 : 0 ≤ h) :
    (((⌊h⌋).toNat : ℕ) : ℚ) = ((⌊h⌋ : ℤ) : ℚ) := by
  have := Int.toNat_of_nonneg (Int.floor_nonneg.mpr h0)
  exact_mod_cast congrArg (fun z : ℤ => (z : ℚ)) this

theorem interpAt_bounds {s : List ℚ} (hs : s.Sorted (· ≤ ·)) {h : ℚ}
    (h0 : 0 ≤ h) (hn : h ≤ (s.length : ℚ) - 1) :
    s.getD (⌊h⌋).toNat 0 ≤ interpAt s h ∧ interpAt s h ≤ s.getD (⌈h⌉).toNat 0 := by
  have hij : (⌊h⌋).toNat ≤ (⌈h⌉).toNat := Int.toNat_le_toNat (Int.floor_le_ceil h)
  have hjlen : (⌈h⌉).toNat < s.length := ceil_toNat_lt h0 hn
  have hlohi : s.getD (⌊h⌋).toNat 0 ≤ s.getD (⌈h⌉).toNat 0 :=
    sorted_getD_mono hs hij hjlen
  have hf0 : 0 ≤ h - (((⌊h⌋).toNat : ℕ) : ℚ) := by
    rw [floor_toNat_cast h0]
    have := Int.floor_le h
    linarith
  have hf1 : h - (((⌊h⌋).toNat : ℕ) : ℚ) ≤ 1 := by
    rw [floor_toNat_cast h0]
    have := Int.lt_floor_add_one h
    linarith
  unfold interpAt
  constructor
  · nlinarith [hlohi, hf0]
  · nlinarith [hlohi, hf0, hf1]

theorem interpAt_mono {s : List ℚ} (hs : s.Sorted (· ≤ ·)) {h h' : ℚ}
    (h0 : 0 ≤ h) (hhh : h ≤ h') (hn : h' ≤ (s.length : ℚ) - 1) :
    interpAt s h ≤ interpAt s h' := by
  have h0' : 0 ≤ h' := le_trans h0 hhh
  have hnh : h ≤ (s.length : ℚ) - 1 := le_trans hhh hn
  rcases le_or_lt (⌈h⌉) (⌊h'⌋) with hc | hc
  · have b1 := (interpAt_bounds hs h0 hnh).2
    have b2 := (interpAt_bounds hs h0' hn).1
    have hmid : s.getD (⌈h⌉).toNat 0 ≤ s.getD (⌊h'⌋).toNat 0 :=
      sorted_getD_mono hs (Int.toNat_le_toNat hc) (floor_toNat_lt h0' hn)
    linarith
  · have hfl : ⌊h⌋ = ⌊h'⌋ := by
      have hmono : ⌊h⌋ ≤ ⌊h'⌋ := Int.floor_le_floor hhh
      have hca := Int.ceil_le_floor_add_one h
      omega
    have hce : ⌈h⌉ = ⌈h'⌉ := by
      have hmono : ⌈h⌉ ≤ ⌈h'⌉ := Int.ceil_le_ceil hhh
      have hca := Int.ceil_le_floor_add_one h'
      omega
    have hlohi : s.getD (⌊h⌋).toNat 0 ≤ s.getD (⌈h⌉).toNat 0 :=
      sorted_getD_mono hs (Int.toNat_le_toNat (Int.floor_le_ceil h))
        (ceil_toNat_lt h0 hnh)
    unfold interpAt
    rw [← hfl, ← hce]
    nlinarith [hlohi, hhh]

theorem quantile_mono (l : List ℚ) {q q' : ℚ} (hq0 : 0 ≤ q) (hqq : q ≤ q')
    (hq1 : q' ≤ 1) : quantile l q ≤ quantile l q' := by
  by_cases hl : l = []
  · simp [quantile, hl]
  · have hlen : 1 ≤ l.length := List.length_pos.mpr hl
    have hN : (0 : ℚ) ≤ (l.length : ℚ) - 1 := by
      have : (1 : ℚ) ≤ (l.length : ℚ) := by exact_mod_cast hlen
      linarith
    have hsort : (l.insertionSort (· ≤ ·)).Sorted (· ≤ ·) :=
      List.sorted_insertionSort _ l
    have hslen : (l.insertionSort (· ≤ ·)).length = l.length :=
      List.length_insertionSort _ l
    unfold quantile
    rw [if_neg hl, if_neg hl]
    apply interpAt_mono hsort (mul_nonneg hq0 hN)
      (mul_le_mul_of_nonneg_right hqq hN)
    rw [hslen]
    calc q' * ((l.length : ℚ) - 1) ≤ 1 * ((l.length : ℚ) - 1) :=
          mul_le_mul_of_nonneg_right hq1 hN
      _ = (l.length : ℚ) - 1 := one_mul _

theorem quantile_le_of_forall_le {l : List ℚ} {B q : ℚ} (hl : l ≠ [])
    (hq0 : 0 ≤ q) (hq1 : q ≤ 1) (hB : ∀ x ∈ l, x ≤ B) : quantile l q ≤ B := by
  have hlen : 1 ≤ l.length := List.length_pos.mpr hl
  have hN : (0 : ℚ) ≤ (l.length : ℚ) - 1 := by
    have : (1 : ℚ) ≤ (l.length : ℚ) := by exact_mod_cast hlen
    linarith
  have hsort : (l.insertionSort (· ≤ ·)).Sorted (· ≤ ·) :=
    List.sorted_insertionSort _ l
  have hslen : (l.insertionSort (· ≤ ·)).length = l.length :=
    List.length_insertionSort _ l
  have hh0 : 0 ≤ q * ((l.length : ℚ) - 1) := mul_nonneg hq0 hN
  have hhn : q * ((l.length : ℚ) - 1) ≤ ((l.insertionSort (· ≤ ·)).length : ℚ) - 1 := by
    rw [hslen]
    calc q * ((l.length : ℚ) - 1) ≤ 1 * ((l.length : ℚ) - 1) :=
          mul_le_mul_of_nonneg_right hq1 hN
      _ = (l.length : ℚ) - 1 := one_mul _
  have hb := (interpAt_bounds hsort hh0 hhn).2
  have hjlen : (⌈q * ((l.length : ℚ) - 1)⌉).toNat < (l.insertionSort (· ≤ ·)).length :=
    ceil_toNat_lt hh0 hhn
  have hmem : (l.insertionSort (· ≤ ·)).getD (⌈q * ((l.length : ℚ) - 1)⌉).toNat 0 ∈ l := by
    rw [List.getD_eq_get _ _ hjlen]
    exact (List.mem_insertionSort _).mp (List.get_mem _ _ _)
  unfold quantile
  rw [if_neg hl]
  exact le_trans hb (hB _ hmem)

theorem le_quantile_of_forall_le {l : List ℚ} {A q : ℚ} (hl : l ≠ [])
    (hq0 : 0 ≤ q) (hq1 : q ≤ 1) (hA : ∀ x ∈ l, A ≤ x) : A ≤ quantile l q := by
  have hlen : 1 ≤ l.length := List.length_pos.mpr hl
  have hN : (0 : ℚ) ≤ (l.length : ℚ) - 1 := by
    have : (1 : ℚ) ≤ (l.length : ℚ) := by exact_mod_cast hlen
    linarith
  have hsort : (l.insertionSort (· ≤ ·)).Sorted (· ≤ ·) :=
    List.sorted_insertionSort _ l
  have hslen : (l.insertionSort (· ≤ ·)).length = l.length :=
    List.length_insertionSort _ l
  have hh0 : 0 ≤ q * ((l.length : ℚ) - 1) := mul_nonneg hq0 hN
  have hhn : q * ((l.length : ℚ) - 1) ≤ ((l.insertionSort (· ≤ ·)).length : ℚ) - 1 := by
    rw [hslen]
    calc q * ((l.length : ℚ) - 1) ≤ 1 * ((l.length : ℚ) - 1) :=
          mul_le_mul_of_nonneg_right hq1 hN
      _ = (l.length : ℚ) - 1 := one_mul _
  have hb := (interpAt_bounds hsort hh0 hhn).1
  have hilen : (⌊q * ((l.length : ℚ) - 1)⌋).toNat < (l.insertionSort (· ≤ ·)).length :=
    floor_toNat_lt hh0 hhn
  have hmem : (l.insertionSort (· ≤ ·)).getD (⌊q * ((l.length : ℚ) - 1)⌋).toNat 0 ∈ l := by
    rw [List.getD_eq_get _ _ hilen]
    exact (List.mem_insertionSort _).mp (List.get_mem _ _ _)
  unfold quantile
  rw [if_neg hl]
  exact le_trans (hA _ hmem) hb

/-- The low threshold never exceeds the up threshold, because the
interpolated quantile is monotone in the quantile level. -/
theorem low_le_up (df : DataFrame) (f : Field) :
    (outlier_thresholds df f).1 ≤ (outlier_thresholds df f).2 := by
  have h := @quantile_mono (colValues f df) (1/100) (99/100)
    (by norm_num) (by norm_num) (by norm_num)
  unfold outlier_thresholds
  dsimp only
  linarith

/-! ### Row-level description of the capping pass -/

theorem Field.get_set_same (f : Field) (x : ℚ) (r : Row) : f.get (f.set x r) = x := by
  cases f <;> rfl

theorem Field.get_set_ne {f g : Field} (h : g ≠ f) (x : ℚ) (r : Row) :
    g.get (f.set x r) = g.get r := by
  cases f <;> cases g <;> first | rfl | exact absurd rfl h

theorem Field.group_set (f : Field) (x : ℚ) (r : Row) : (f.set x r).Group = r.Group := by
  cases f <;> rfl

/-- The effect of one capping pass on a single cell value. -/
def capValue (lu : ℚ × ℚ) (w : ℚ) : ℚ :=
  if (if w < lu.1 then lu.1 else w) > lu.2 then lu.2
  else (if w < lu.1 then lu.1 else w)

/-- The effect of the two sequential capping assignments on a single row. -/
def capRow (lu : ℚ × ℚ) (f : Field) (r : Row) : Row :=
  if f.get (if f.get r < lu.1 then f.set lu.1 r else r) > lu.2 then
    f.set lu.2 (if f.get r < lu.1 then f.set lu.1 r else r)
  else (if f.get r < lu.1 then f.set lu.1 r else r)

theorem replace_rows (df : DataFrame) (f : Field) :
    (replace_with_thresholds df f).rows =
      df.rows.map (capRow (outlier_thresholds df f) f) := by
  simp only [replace_with_thresholds, List.map_map]
  rfl

theorem replace_index (df : DataFrame) (f : Field) :
    (replace_with_thresholds df f).index = df.index := rfl

theorem get_if_set (f : Field) (c : Prop) [Decidable c] (x : ℚ) (r : Row) :
    f.get (if c then f.set x r else r) = if c then x else f.get r := by
  split <;> simp [Field.get_set_same]

theorem capRow_get (lu : ℚ × ℚ) (f : Field) (r : Row) :
    f.get (capRow lu f r) = capValue lu (f.get r) := by
  unfold capRow capValue
  rw [get_if_set, get_if_set]

theorem capRow_get_ne (lu : ℚ × ℚ) {f g : Field} (h : g ≠ f) (r : Row) :
    g.get (capRow lu f r) = g.get r := by
  unfold capRow
  split <;> split <;> simp [Field.get_set_ne h]

theorem capRow_group (lu : ℚ × ℚ) (f : Field) (r : Row) :
    (capRow lu f r).Group = r.Group := by
  unfold capRow
  split <;> split <;> simp [Field.group_set]

theorem capRow_id (lu : ℚ × ℚ) (f : Field) (r : Row) (h1 : lu.1 ≤ f.get r)
    (h2 : f.get r ≤ lu.2) : capRow lu f r = r := by
  unfold capRow
  rw [if_neg (not_lt.mpr h1), if_neg (not_lt.mpr h2)]

theorem capRow_changed (lu : ℚ × ℚ) (f : Field) (r : Row)
    (h : capRow lu f r ≠ r) : f.get r < lu.1 ∨ lu.2 < f.get r := by
  by_contra hc
  push_neg at hc
  exact h (capRow_id lu f r hc.1 hc.2)

theorem colValues_replace (df : DataFrame) (f : Field) :
    colValues f (replace_with_thresholds df f) =
      (colValues f df).map (capValue (outlier_thresholds df f)) := by
  unfold colValues
  rw [replace_rows, List.map_map, List.map_map]
  exact List.map_congr_left (fun r _ => capRow_get _ f r)

theorem capValue_bounds {lu : ℚ × ℚ} (hlu : lu.1 ≤ lu.2) (w : ℚ) :
    lu.1 ≤ capValue lu w ∧ capValue lu w ≤ lu.2 := by
  unfold capValue
  split_ifs with h1 h2 h3 <;> constructor <;> linarith

/-- Every value of the capped column lies between the thresholds computed
from the original column. -/
theorem values_replace_mem (df : DataFrame) (f : Field) :
    ∀ v ∈ colValues f (replace_with_thresholds df f),
      (outlier_thresholds df f).1 ≤ v ∧ v ≤ (outlier_thresholds df f).2 := by
  intro v hv
  rw [colValues_replace] at hv
  obtain ⟨w, _, rfl⟩ := List.mem_map.mp hv
  exact capValue_bounds (low_le_up df f) w

theorem capValue_interval {q1 q3 A B w : ℚ} (h13 : q1 ≤ q3) (hA1 : A ≤ q1)
    (h3B : q3 ≤ B) (hwA : A ≤ w) (hwB : w ≤ B) :
    A ≤ capValue (q1 - 3/2 * (q3 - q1), q3 + 3/2 * (q3 - q1)) w ∧
      capValue (q1 - 3/2 * (q3 - q1), q3 + 3/2 * (q3 - q1)) w ≤ B := by
  unfold capValue
  dsimp only
  split_ifs with h1 h2 h3 <;> constructor <;> linarith

/-- A second capping pass can only move values around inside the band set
by the first pass: its own thresholds, recomputed from the capped column,
never send a value outside the first thresholds. -/
theorem replace_twice_bounded (df : DataFrame) (f : Field) :
    ∀ v ∈ colValues f (replace_with_thresholds (replace_with_thresholds df f) f),
      (outlier_thresholds df f).1 ≤ v ∧ v ≤ (outlier_thresholds df f).2 := by
  intro v hv
  by_cases hrows : df.rows = []
  · rw [colValues_replace, colValues_replace] at hv
    simp [colValues, hrows] at hv
  · have hcolne : colValues f df ≠ [] := by
      simp [colValues, hrows]
    have hcol1ne : colValues f (replace_with_thresholds df f) ≠ [] := by
      rw [colValues_replace]
      simpa using hcolne
    have hw : ∀ w ∈ colValues f (replace_with_thresholds df f),
        (outlier_thresholds df f).1 ≤ w ∧ w ≤ (outlier_thresholds df f).2 :=
      values_replace_mem df f
    have hq1lo : (outlier_thresholds df f).1 ≤
        quantile (colValues f (replace_with_thresholds df f)) (1/100) :=
      le_quantile_of_forall_le hcol1ne (by norm_num) (by norm_num)
        (fun x hx => (hw x hx).1)
    have hq3hi : quantile (colValues f (replace_with_thresholds df f)) (99/100) ≤
        (outlier_thresholds df f).2 :=
      quantile_le_of_forall_le hcol1ne (by norm_num) (by norm_num)
        (fun x hx => (hw x hx).2)
    have hq13 : quantile (colValues f (replace_with_thresholds df f)) (1/100) ≤
        quantile (colValues f (replace_with_thresholds df f)) (99/100) :=
      quantile_mono _ (by norm_num) (by norm_num) (by norm_num)
    rw [colValues_replace (replace_with_thresholds df f) f] at hv
    obtain ⟨w, hwmem, rfl⟩ := List.mem_map.mp hv
    have hwb := hw w hwmem
    have hres := capValue_interval hq13 hq1lo hq3hi hwb.1 hwb.2
    simpa [outlier_thresholds] using hres

/-! ### Concrete data used by counterexamples and witnesses -/

/-- A row whose Purchase value is `p` and whose other cells are zero. -/
def mkRow (p : ℚ) : Row := ⟨0, 0, p, 0, none⟩

/-- A one-row frame. -/
def dfOne : DataFrame := DataFrame.ofRows [mkRow 0]

/-- A 100-row frame whose Purchase column is `a` followed by 99 copies of
`b`. -/
def frameAB (a b : ℚ) : DataFrame :=
  DataFrame.ofRows (mkRow a :: List.replicate 99 (mkRow b))

/-- A 100-row frame with one extreme Purchase value: the 1st-percentile
interpolation touches the minimum, so recomputed thresholds tighten after
the first capping pass. -/
def dfBad : DataFrame := frameAB (-1600) 0

/-- The merged frame the script builds before testing. -/
def mergedFrame (dfc dft : DataFrame) : DataFrame :=
  concatIgnoreIndex (assignGroup "C" dfc) (assignGroup "T" dft)

/-- A stand-in scipy routine returning a fixed (statistic, p-value). -/
def shZero : List ℚ → ℚ × ℚ := fun _ => (0, 1)

/-- A Shapiro-Wilk stand-in reporting a significant departure from
normality (p = 0.01). -/
def shLow : List ℚ → ℚ × ℚ := fun _ => (0, 1/100)

/-- A Levene stand-in reporting homogeneous variances (p = 1). -/
def lvZero : List ℚ → List ℚ → ℚ × ℚ := fun _ _ => (0, 1)

/-- A Levene stand-in reporting heterogeneous variances (p = 0.01). -/
def lvLow : List ℚ → List ℚ → ℚ × ℚ := fun _ _ => (0, 1/100)

/-- A t-test stand-in. -/
def ttZero : List ℚ → List ℚ → Bool → ℚ × ℚ := fun _ _ _ => (0, 1)

/-- A Mann-Whitney stand-in. -/
def mwZero : List ℚ → List ℚ → ℚ × ℚ := fun _ _ => (0, 1)

/-! ### Concrete quantile computations -/

theorem quantile_singleton (c q : ℚ) : quantile [c] q = c := by
  unfold quantile
  rw [if_neg (by simp)]
  have hsort : List.insertionSort (· ≤ ·) [c] = [c] := rfl
  rw [hsort]
  have hlen : (([c] : List ℚ).length : ℚ) = 1 := by simp
  rw [hlen]
  have harg : q * ((1 : ℚ) - 1) = 0 := by ring
  rw [harg]
  unfold interpAt
  rw [Int.floor_zero, Int.ceil_zero, Int.toNat_zero]
  simp

theorem sorted_cons_replicate {a b : ℚ} (hab : a ≤ b) (n : ℕ) :
    List.Sorted (· ≤ ·) (a :: List.replicate n b) := by
  rw [List.sorted_cons]
  constructor
  · intro x hx
    rw [List.eq_of_mem_replicate hx]
    exact hab
  · exact List.pairwise_replicate.mpr (Or.inr le_rfl)

theorem getD_cons_replicate {b : ℚ} {n i : ℕ} (hi : i < n) (a : ℚ) :
    (a :: List.replicate n b).getD (i + 1) 0 = b := by
  rw [List.getD_cons_succ, List.getD_eq_getElem _ _ (by simpa using hi)]
  simp

theorem quantile_cons_replicate_q1 {a b : ℚ} (hab : a ≤ b) :
    quantile (a :: List.replicate 99 b) (1/100) = a + 99/100 * (b - a) := by
  unfold quantile
  rw [if_neg (by simp)]
  rw [List.Sorted.insertionSort_eq (sorted_cons_replicate hab 99)]
  have hlen : (((a :: List.replicate 99 b) : List ℚ).length : ℚ) = 100 := by simp
  rw [hlen]
  have harg : (1 : ℚ)/100 * ((100 : ℚ) - 1) = 99/100 := by norm_num
  rw [harg]
  unfold interpAt
  have hfl : ⌊(99 : ℚ)/100⌋ = 0 := by
    rw [Int.floor_eq_iff]
    norm_num
  have hcl : ⌈(99 : ℚ)/100⌉ = 1 := by
    rw [Int.ceil_eq_iff]
    norm_num
  rw [hfl, hcl, Int.toNat_zero, Int.toNat_one]
  rw [List.getD_cons_zero, getD_cons_replicate (by norm_num) a]
  push_cast
  ring

theorem quantile_cons_replicate_q3 {a b : ℚ} (hab : a ≤ b) :
    quantile (a :: List.replicate 99 b) (99/100) = b := by
  unfold quantile
  rw [if_neg (by simp)]
  rw [List.Sorted.insertionSort_eq (sorted_cons_replicate hab 99)]
  have hlen : (((a :: List.replicate 99 b) : List ℚ).length : ℚ) = 100 := by simp
  rw [hlen]
  have harg : (99 : ℚ)/100 * ((100 : ℚ) - 1) = 9801/100 := by norm_num
  rw [harg]
  unfold interpAt
  have hfl : ⌊(9801 : ℚ)/100⌋ = 98 := by
    rw [Int.floor_eq_iff]
    norm_num
  have hcl : ⌈(9801 : ℚ)/100⌉ = 99 := by
    rw [Int.ceil_eq_iff]
    norm_num
  have ht98 : ((98 : ℤ)).toNat = 98 := rfl
  have ht99 : ((99 : ℤ)).toNat = 99 := rfl
  rw [hfl, hcl, ht98, ht99]
  have h98 : (a :: List.replicate 99 b).getD 98 0 = b :=
    @getD_cons_replicate b 99 97 (by norm_num) a
  have h99 : (a :: List.replicate 99 b).getD 99 0 = b :=
    @getD_cons_replicate b 99 98 (by norm_num) a
  rw [h98, h99]
  ring

theorem colValues_frameAB (a b : ℚ) :
    colValues Field.purchase (frameAB a b) = a :: List.replicate 99 b := by
  simp [colValues, frameAB, DataFrame.ofRows, mkRow, Field.get]

theorem thresholds_frameAB {a b : ℚ} (hab : a ≤ b) :
    outlier_thresholds (frameAB a b) Field.purchase =
      (a + 39/40 * (b - a), b + 3/200 * (b - a)) := by
  unfold outlier_thresholds
  rw [colValues_frameAB, quantile_cons_replicate_q1 hab, quantile_cons_replicate_q3 hab]
  rw [Prod.mk.injEq]
  constructor <;> ring

theorem capRow_mkRow_below {lu : ℚ × ℚ} {x : ℚ} (h1 : x < lu.1) (h2 : lu.1 ≤ lu.2) :
    capRow lu Field.purchase (mkRow x) = mkRow lu.1 := by
  unfold capRow
  rw [if_pos (show Field.purchase.get (mkRow x) < lu.1 from h1)]
  have hget : Field.purchase.get (Field.purchase.set lu.1 (mkRow x)) = lu.1 :=
    Field.get_set_same _ _ _
  rw [hget, if_neg (not_lt.mpr h2)]
  rfl

theorem capRow_mkRow_inside {lu : ℚ × ℚ} {x : ℚ} (h1 : lu.1 ≤ x) (h2 : x ≤ lu.2) :
    capRow lu Field.purchase (mkRow x) = mkRow x :=
  capRow_id lu Field.purchase (mkRow x) h1 h2

theorem replace_frameAB {a b : ℚ} (h : a < b) :
    replace_with_thresholds (frameAB a b) Field.purchase =
      frameAB (a + 39/40 * (b - a)) b := by
  have hab : a ≤ b := le_of_lt h
  have hlu := thresholds_frameAB hab
  have hrows : (replace_with_thresholds (frameAB a b) Field.purchase).rows =
      (frameAB (a + 39/40 * (b - a)) b).rows := by
    rw [replace_rows, hlu]
    show (mkRow a :: List.replicate 99 (mkRow b)).map
        (capRow (a + 39/40 * (b - a), b + 3/200 * (b - a)) Field.purchase) =
      mkRow (a + 39/40 * (b - a)) :: List.replicate 99 (mkRow b)
    rw [List.map_cons, List.map_replicate]
    rw [capRow_mkRow_below (by dsimp only; linarith) (by dsimp only; linarith)]
    rw [capRow_mkRow_inside (by dsimp only; linarith) (by dsimp only; linarith)]
  have hidx : (replace_with_thresholds (frameAB a b) Field.purchase).index =
      (frameAB (a + 39/40 * (b - a)) b).index := by
    rw [replace_index]
    simp [frameAB, DataFrame.ofRows]
  calc replace_with_thresholds (frameAB a b) Field.purchase
      = ⟨(replace_with_thresholds (frameAB a b) Field.purchase).rows,
         (replace_with_thresholds (frameAB a b) Field.purchase).index⟩ := rfl
    _ = ⟨(frameAB (a + 39/40 * (b - a)) b).rows,
         (frameAB (a + 39/40 * (b - a)) b).index⟩ := by rw [hrows, hidx]
    _ = frameAB (a + 39/40 * (b - a)) b := rfl

theorem colValues_dfOne : colValues Field.purchase dfOne = [0] := rfl

theorem thresholds_dfOne : outlier_thresholds dfOne Field.purchase = (0, 0) := by
  unfold outlier_thresholds
  rw [colValues_dfOne, quantile_singleton, quantile_singleton]
  norm_num

theorem replace_dfOne : replace_with_thresholds dfOne Field.purchase = dfOne := by
  have hrows : (replace_with_thresholds dfOne Field.purchase).rows = dfOne.rows := by
    rw [replace_rows, thresholds_dfOne]
    show [capRow ((0 : ℚ), (0 : ℚ)) Field.purchase (mkRow 0)] = [mkRow 0]
    rw [capRow_id _ _ _ le_rfl le_rfl]
  calc replace_with_thresholds dfOne Field.purchase
      = ⟨(replace_with_thresholds dfOne Field.purchase).rows,
         (replace_with_thresholds dfOne Field.purchase).index⟩ := rfl
    _ = ⟨dfOne.rows, dfOne.index⟩ := by rw [hrows, replace_index]
    _ = dfOne := rfl

/-! ## Claims -/

/-- C1 (counterexample): at a concrete input where the Shapiro-Wilk
routine reports p = 0.01 (≤ 0.05) for both groups, the script still does
not select the Mann-Whitney U test, so test selection is not gated by the
normality outcomes as claimed. -/
theorem C1_counterexample :
    (shLow (locGroupPurchase (mergedFrame dfOne dfOne) "C")).2 ≤ 1/20 ∧
    (shLow (locGroupPurchase (mergedFrame dfOne dfOne) "T")).2 ≤ 1/20 ∧
    (runAB shLow lvZero ttZero mwZero (mergedFrame dfOne dfOne)).test ≠
      ComparisonTest.mannwhitney := by
  refine ⟨by norm_num [shLow], by norm_num [shLow], fun hcon => ?_⟩
  exact ComparisonTest.noConfusion
    (show ComparisonTest.ttest true = ComparisonTest.mannwhitney from hcon)

/-- C1 (amended): for every input dataset and whatever the Shapiro-Wilk,
Levene and comparison routines return, the script always runs the
independent two-sample t-test on the two groups' Purchase series with
equal_var = true; the Mann-Whitney branch is never executed. -/
theorem C1_always_ttest (shapiro : List ℚ → ℚ × ℚ)
    (levene : List ℚ → List ℚ → ℚ × ℚ) (ttest_ind : List ℚ → List ℚ → Bool → ℚ × ℚ)
    (mannwhitneyu : List ℚ → List ℚ → ℚ × ℚ) (df : DataFrame) :
    (runAB shapiro levene ttest_ind mannwhitneyu df).test = ComparisonTest.ttest true ∧
    (runAB shapiro levene ttest_ind mannwhitneyu df).testRes =
      ttest_ind (locGroupPurchase df "C") (locGroupPurchase df "T") true :=
  ⟨rfl, rfl⟩

/-- C2 (counterexample): at a concrete input where the Levene routine
reports p = 0.01 (≤ 0.05), the t-test is still invoked with
equal_var = true, so the flag is not set according to the homogeneity
classification as claimed. -/
theorem C2_counterexample :
    (lvLow (locGroupPurchase (mergedFrame dfOne dfOne) "C")
        (locGroupPurchase (mergedFrame dfOne dfOne) "T")).2 ≤ 1/20 ∧
    (runAB shZero lvLow ttZero mwZero (mergedFrame dfOne dfOne)).test ≠
      ComparisonTest.ttest false := by
  refine ⟨by norm_num [lvLow], fun hcon => ?_⟩
  have hbit : true = false := ComparisonTest.ttest.inj
    (show ComparisonTest.ttest true = ComparisonTest.ttest false from hcon)
  exact Bool.noConfusion hbit

/-- C2 (amended): the equal-variance flag passed to the t-test is the
constant true: it does not depend on the Levene routine at all (replacing
the Levene routine with any other leaves the selected test and its flag
unchanged). -/
theorem C2_equal_var_independent_of_levene (shapiro : List ℚ → ℚ × ℚ)
    (levene levene' : List ℚ → List ℚ → ℚ × ℚ)
    (ttest_ind : List ℚ → List ℚ → Bool → ℚ × ℚ)
    (mannwhitneyu : List ℚ → List ℚ → ℚ × ℚ) (df : DataFrame) :
    (runAB shapiro levene ttest_ind mannwhitneyu df).test = ComparisonTest.ttest true ∧
    (runAB shapiro levene ttest_ind mannwhitneyu df).test =
      (runAB shapiro levene' ttest_ind mannwhitneyu df).test :=
  ⟨rfl, rfl⟩

/-- C3 (counterexample): capping is not idempotent.  On a 100-row frame
with Purchase column −1600 followed by 99 zeros, the first pass caps
−1600 to −40, and the second pass — recomputing the 1st/99th percentiles
from the capped column — caps −40 further to −1. -/
theorem C3_counterexample :
    replace_with_thresholds (replace_with_thresholds dfBad Field.purchase) Field.purchase ≠
      replace_with_thresholds dfBad Field.purchase := by
  have h1 : replace_with_thresholds dfBad Field.purchase = frameAB (-40) 0 := by
    rw [show dfBad = frameAB (-1600) 0 from rfl]
    rw [replace_frameAB (by norm_num)]
    congr 1
    norm_num
  have h2 : replace_with_thresholds (frameAB (-40) 0) Field.purchase = frameAB (-1) 0 := by
    rw [replace_frameAB (by norm_num)]
    congr 1
    norm_num
  rw [h1, h2]
  intro hcon
  have hx : Field.purchase.get ((frameAB (-1) 0).rows.getD 0 default) =
      Field.purchase.get ((frameAB (-40) 0).rows.getD 0 default) := by rw [hcon]
  norm_num [frameAB, DataFrame.ofRows, mkRow, Field.get] at hx

/-- C3 (amended): applying replace_with_thresholds twice need not equal
applying it once, because the thresholds are recomputed from the capped
values and can tighten.  What does hold: after a second application every
value still lies within the first application's thresholds, and any
dataset the first application leaves unchanged is also unchanged by the
second. -/
theorem C3_second_application (df : DataFrame) (f : Field) :
    (∀ v ∈ colValues f (replace_with_thresholds (replace_with_thresholds df f) f),
        (outlier_thresholds df f).1 ≤ v ∧ v ≤ (outlier_thresholds df f).2) ∧
    (replace_with_thresholds df f = df →
      replace_with_thresholds (replace_with_thresholds df f) f =
        replace_with_thresholds df f) := by
  refine ⟨replace_twice_bounded df f, fun hfix => ?_⟩
  rw [hfix]
  exact hfix

/-- C3 (witness): the double-application bound and the fixpoint property
instantiated on a concrete one-row frame. -/
theorem C3_witness :
    ((outlier_thresholds dfOne Field.purchase).1 ≤ 0 ∧
      (0 : ℚ) ≤ (outlier_thresholds dfOne Field.purchase).2) ∧
    replace_with_thresholds (replace_with_thresholds dfOne Field.purchase) Field.purchase =
      replace_with_thresholds dfOne Field.purchase :=
  ⟨(C3_second_application dfOne Field.purchase).1 0
      (by rw [replace_dfOne, replace_dfOne, colValues_dfOne]; simp),
   (C3_second_application dfOne Field.purchase).2 replace_dfOne⟩

/-- C4: after replace_with_thresholds runs on a field, every value v of
that field satisfies low_limit ≤ v ≤ up_limit, where Q1 and Q3 are the
field's 1st and 99th percentiles before capping, IQR = Q3 − Q1,
low_limit = Q1 − 1.5·IQR and up_limit = Q3 + 1.5·IQR. -/
theorem C4_capped_values_within_limits (df : DataFrame) (f : Field) (v : ℚ)
    (hv : v ∈ colValues f (replace_with_thresholds df f)) :
    quantile (colValues f df) (1/100) -
        3/2 * (quantile (colValues f df) (99/100) - quantile (colValues f df) (1/100)) ≤ v ∧
      v ≤ quantile (colValues f df) (99/100) +
        3/2 * (quantile (colValues f df) (99/100) - quantile (colValues f df) (1/100)) :=
  values_replace_mem df f v hv

/-- C4 (witness): the bound instantiated on a concrete one-row frame. -/
theorem C4_witness :
    ((0 : ℚ) ∈ colValues Field.purchase (replace_with_thresholds dfOne Field.purchase)) ∧
    (quantile (colValues Field.purchase dfOne) (1/100) -
        3/2 * (quantile (colValues Field.purchase dfOne) (99/100) -
          quantile (colValues Field.purchase dfOne) (1/100)) ≤ 0 ∧
      (0 : ℚ) ≤ quantile (colValues Field.purchase dfOne) (99/100) +
        3/2 * (quantile (colValues Field.purchase dfOne) (99/100) -
          quantile (colValues Field.purchase dfOne) (1/100))) :=
  ⟨by rw [replace_dfOne, colValues_dfOne]; simp,
   C4_capped_values_within_limits dfOne Field.purchase 0
     (by rw [replace_dfOne, colValues_dfOne]; simp)⟩

/-- C5: concatenation preserves row count (|Combined| = |Control| +
|Test|), keeps every Control row before every Test row with the internal
order of each group unchanged, and resets the positional index to
0..n−1. -/
theorem C5_concat_shape (a b : DataFrame) :
    (concatIgnoreIndex a b).rows.length = a.rows.length + b.rows.length ∧
    (concatIgnoreIndex a b).rows.take a.rows.length = a.rows ∧
    (concatIgnoreIndex a b).rows.drop a.rows.length = b.rows ∧
    (concatIgnoreIndex a b).index = List.range (a.rows.length + b.rows.length) :=
  ⟨List.length_append _ _, List.take_left _ _, List.drop_left _ _, rfl⟩

/-- C6: every row of the merged frame carries the non-empty Group label
"C" when it came from the Control frame and "T" when it came from the
Test frame. -/
theorem C6_group_labels (dfc dft : DataFrame) (i : ℕ)
    (hi : i < dfc.rows.length + dft.rows.length) :
    ((mergedFrame dfc dft).rows.getD i default).Group =
        some (if i < dfc.rows.length then "C" else "T") ∧
    ((mergedFrame dfc dft).rows.getD i default).Group ≠ none := by
  have hmain : ((mergedFrame dfc dft).rows.getD i default).Group =
      some (if i < dfc.rows.length then "C" else "T") := by
    unfold mergedFrame concatIgnoreIndex assignGroup
    dsimp only
    by_cases h : i < dfc.rows.length
    · rw [if_pos h, List.getD_append _ _ _ _ (by simpa using h)]
      rw [List.getD_eq_getElem _ _ (by simpa using h)]
      simp
    · rw [if_neg h]
      push_neg at h
      rw [List.getD_append_right _ _ _ _ (by simpa using h)]
      have hlt : i - (dfc.rows.map (fun r => { r with Group := some "C" })).length <
          (dft.rows.map (fun r => { r with Group := some "T" })).length := by
        simp only [List.length_map]
        omega
      rw [List.getD_eq_getElem _ _ hlt]
      simp
  exact ⟨hmain, by rw [hmain]; simp⟩

/-- C6 (witness): the label of row 1 of a concrete two-row merged frame
is "T". -/
theorem C6_witness :
    (1 < dfOne.rows.length + dfOne.rows.length) ∧
    ((mergedFrame dfOne dfOne).rows.getD 1 default).Group =
      some (if 1 < dfOne.rows.length then "C" else "T") :=
  ⟨by simp [dfOne, DataFrame.ofRows],
   (C6_group_labels dfOne dfOne 1 (by simp [dfOne, DataFrame.ofRows])).1⟩

/-- C7: the final interpretation compares the comparison p-value with
α = 0.05: when p > 0.05 it reports that H0 cannot be rejected, otherwise
that H0 is rejected, and in both branches it emits the test statistic and
the p-value. -/
theorem C7_interpretation (test_stat p_value : ℚ) :
    ((p_value > 1/20 → (interpret test_stat p_value).decision = "H0 can not be denied!") ∧
      (¬ p_value > 1/20 → (interpret test_stat p_value).decision = "H0 can denied!")) ∧
    (interpret test_stat p_value).statLine = test_stat ∧
    (interpret test_stat p_value).pLine = p_value := by
  unfold interpret
  split_ifs with h
  · exact ⟨⟨fun _ => rfl, fun hn => absurd h hn⟩, rfl, rfl⟩
  · exact ⟨⟨fun hp => absurd hp h, fun _ => rfl⟩, rfl, rfl⟩

/-- C7 (witness): at the p-value 0.349 from the spec's scenario the
decision reads "H0 can not be denied!". -/
theorem C7_witness :
    ((349/1000 : ℚ) > 1/20) ∧
    (interpret 2 (349/1000)).decision = "H0 can not be denied!" :=
  ⟨by norm_num, (C7_interpretation 2 (349/1000)).1.1 (by norm_num)⟩

/-- C8: if the 1st and 99th percentiles of a field coincide at Q1 (zero
IQR), then low_limit = up_limit = Q1 and capping maps every value of the
field to Q1. -/
theorem C8_zero_iqr_collapses (df : DataFrame) (f : Field)
    (hq : quantile (colValues f df) (1/100) = quantile (colValues f df) (99/100)) :
    outlier_thresholds df f =
        (quantile (colValues f df) (1/100), quantile (colValues f df) (1/100)) ∧
    ∀ v ∈ colValues f (replace_with_thresholds df f),
      v = quantile (colValues f df) (1/100) := by
  have hthr : outlier_thresholds df f =
      (quantile (colValues f df) (1/100), quantile (colValues f df) (1/100)) := by
    unfold outlier_thresholds
    rw [← hq, Prod.mk.injEq]
    constructor <;> ring
  refine ⟨hthr, fun v hv => ?_⟩
  rw [colValues_replace, hthr] at hv
  obtain ⟨w, _, rfl⟩ := List.mem_map.mp hv
  unfold capValue
  dsimp only
  split_ifs with h1 h2 h3 <;> first | rfl | linarith

/-- C8 (witness): on a one-row frame the two percentiles coincide and the
capped value equals them. -/
theorem C8_witness :
    quantile (colValues Field.purchase dfOne) (1/100) =
        quantile (colValues Field.purchase dfOne) (99/100) ∧
    (0 : ℚ) = quantile (colValues Field.purchase dfOne) (1/100) :=
  ⟨by rw [colValues_dfOne, quantile_singleton, quantile_singleton],
   (C8_zero_iqr_collapses dfOne Field.purchase
      (by rw [colValues_dfOne, quantile_singleton, quantile_singleton])).2 0
      (by rw [replace_dfOne, colValues_dfOne]; simp)⟩

/-- C9: the normality step is deterministic: running the Shapiro-Wilk
step twice on identical data yields identical (statistic, p-value) pairs
and identical printed verdicts for both groups. -/
theorem C9_shapiro_deterministic (shapiro : List ℚ → ℚ × ℚ)
    (levene : List ℚ → List ℚ → ℚ × ℚ) (ttest_ind : List ℚ → List ℚ → Bool → ℚ × ℚ)
    (mannwhitneyu : List ℚ → List ℚ → ℚ × ℚ) (df df' : DataFrame) (h : df = df') :
    (runAB shapiro levene ttest_ind mannwhitneyu df).shapiroC =
        (runAB shapiro levene ttest_ind mannwhitneyu df').shapiroC ∧
    (runAB shapiro levene ttest_ind mannwhitneyu df).normalMsgC =
        (runAB shapiro levene ttest_ind mannwhitneyu df').normalMsgC ∧
    (runAB shapiro levene ttest_ind mannwhitneyu df).shapiroT =
        (runAB shapiro levene ttest_ind mannwhitneyu df').shapiroT ∧
    (runAB shapiro levene ttest_ind mannwhitneyu df).normalMsgT =
        (runAB shapiro levene ttest_ind mannwhitneyu df').normalMsgT := by
  subst h
  exact ⟨rfl, rfl, rfl, rfl⟩

/-- C9 (witness): determinism instantiated on a concrete frame. -/
theorem C9_witness :
    dfOne = dfOne ∧
    (runAB shZero lvZero ttZero mwZero dfOne).shapiroC =
      (runAB shZero lvZero ttZero mwZero dfOne).shapiroC :=
  ⟨rfl, (C9_shapiro_deterministic shZero lvZero ttZero mwZero dfOne dfOne rfl).1⟩

/-- C10: replace_with_thresholds has a bounded frame: it preserves the
row count and the index, leaves every column other than the target field
(and the Group column) unchanged, leaves rows whose target value already
lies within [low_limit, up_limit] unchanged, and only rewrites a row when
its target value is strictly below low_limit or strictly above
up_limit. -/
theorem C10_frame_conditions (df : DataFrame) (f : Field) (i : ℕ)
    (hi : i < df.rows.length) :
    (replace_with_thresholds df f).rows.length = df.rows.length ∧
    (replace_with_thresholds df f).index = df.index ∧
    (∀ g : Field, g ≠ f →
      g.get ((replace_with_thresholds df f).rows.getD i default) =
        g.get (df.rows.getD i default)) ∧
    ((replace_with_thresholds df f).rows.getD i default).Group =
      (df.rows.getD i default).Group ∧
    ((outlier_thresholds df f).1 ≤ f.get (df.rows.getD i default) →
      f.get (df.rows.getD i default) ≤ (outlier_thresholds df f).2 →
      (replace_with_thresholds df f).rows.getD i default = df.rows.getD i default) ∧
    ((replace_with_thresholds df f).rows.getD i default ≠ df.rows.getD i default →
      f.get (df.rows.getD i default) < (outlier_thresholds df f).1 ∨
        (outlier_thresholds df f).2 < f.get (df.rows.getD i default)) := by
  have hrow : (replace_with_thresholds df f).rows.getD i default =
      capRow (outlier_thresholds df f) f (df.rows.getD i default) := by
    rw [replace_rows]
    rw [List.getD_eq_getElem _ _ (by simpa using hi)]
    rw [List.getD_eq_getElem _ _ hi]
    rw [List.getElem_map]
  refine ⟨by rw [replace_rows, List.length_map], replace_index df f, ?_, ?_, ?_, ?_⟩
  · intro g hg
    rw [hrow, capRow_get_ne _ hg]
  · rw [hrow, capRow_group]
  · intro h1 h2
    rw [hrow, capRow_id _ _ _ h1 h2]
  · intro hne
    rw [hrow] at hne
    exact capRow_changed _ _ _ hne

/-- C10 (witness): the frame conditions instantiated on a concrete
one-row frame. -/
theorem C10_witness :
    (0 < dfOne.rows.length) ∧
    (replace_with_thresholds dfOne Field.purchase).rows.length = dfOne.rows.length :=
  ⟨by simp [dfOne, DataFrame.ofRows],
   (C10_frame_conditions dfOne Field.purchase 0 (by simp [dfOne, DataFrame.ofRows])).1⟩

end ABTesting
